import Mathlib

/-!
A shallow embedding of the collection-rename subsystem found in
`src/mongo/db/catalog/rename_collection.cpp`, together with theorems settling
the specification claims about it.

The embedding models the catalog as an association list from namespaces to
collections and each entry point of the source file as a state transformer
returning an `Outcome`.  External collaborators (catalog lookups, the database
object, the drop-collection subsystem, the operation observer, the replication
coordinator) are modelled as small abstract functions; the control flow of the
rename subsystem itself is translated branch by branch from the source file.
Line numbers in comments refer to `rename_collection.cpp`.
-/

namespace MongoRename

/-- String constants used by namespace predicates. -/
def sysViewsColl : String := "system.views"

def dropPendingPfx : String := "system.drop."

def oplogPfx : String := "oplog."

def localDbName : String := "local"

def systemPfx : String := "system."

/-- Fully qualified namespace: a (database, collection) pair, mirroring
`NamespaceString`. -/
structure NS where
  db : String
  coll : String
deriving DecidableEq, Repr

/-- Full namespace string `db.coll`, as produced by `NamespaceString::ns()`. -/
def NS.toNsString (n : NS) : String := n.db ++ "." ++ n.coll

/-- Model of `NamespaceString::isSystemDotViews()`. -/
def NS.isSystemDotViews (n : NS) : Bool := n.coll == sysViewsColl

/-- Model of `NamespaceString::isDropPendingNamespace()`: drop-pending
collections live under a reserved `system.drop.` prefix. -/
def NS.isDropPendingNamespace (n : NS) : Bool := dropPendingPfx.isPrefixOf n.coll

/-- Model of `NamespaceString::isOplog()`. -/
def NS.isOplog (n : NS) : Bool := n.db == localDbName && oplogPfx.isPrefixOf n.coll

/-- An entry of a collection's index catalog: whether it is the `_id` index,
whether the index build has finished (is "ready"), and an opaque token for the
serialized descriptor (`IndexDescriptor::infoObj()`). -/
structure IndexInfo where
  isId : Bool
  ready : Bool
  infoObj : Nat
deriving DecidableEq, Repr

/-- A record of a record store: record id plus opaque document payload. -/
structure Rec where
  id : Nat
  data : Nat
deriving DecidableEq, Repr

/-- A collection: UUID, temp flag, opaque durable-catalog options (minus the
UUID and temp flag, which are modelled separately), index catalog and
documents. -/
structure Coll where
  uuid : Nat
  temp : Bool
  options : Nat
  indexes : List IndexInfo
  docs : List Rec
deriving DecidableEq, Repr

/-- Descriptor token for the implicitly created `_id` index. -/
def idIndexDescriptor : Nat := 0

/-- The `_id` index every newly created collection receives implicitly. -/
def idIndexInfo : IndexInfo :=
  { isId := true, ready := true, infoObj := idIndexDescriptor }

/-- Typed error codes returned by the rename subsystem (spec section 7). -/
inductive ErrorCode
  | NotMaster
  | IllegalOperation
  | NamespaceNotFound
  | NamespaceExists
  | CommandNotSupportedOnView
  | InvalidNamespace
  | CommandFailed
  | BadValue
  | TypeMismatch
deriving DecidableEq, Repr

/-- Replicated-observer and drop events recorded by the model, so that claims
about observer emissions and drop optimes can be stated.  `dropCollection`
records the optime handed to the drop subsystem and whether writes were being
replicated at the call site. -/
inductive Event
  | onRenameCollection (source target : NS) (uuid : Option Nat)
      (dropTargetUUID : Option Nat) (numRecords : Nat) (stayTemp : Bool)
  | preRenameCollection (source target : NS) (uuid : Option Nat)
      (dropTargetUUID : Option Nat) (numRecords : Nat) (stayTemp : Bool)
      (returned : Option Nat)
  | postRenameCollection (source target : NS) (uuid : Option Nat)
      (dropTargetUUID : Option Nat) (stayTemp : Bool)
  | dropCollection (ns : NS) (optime : Option Nat) (writesReplicated : Bool)
deriving DecidableEq, Repr

/-- Whether an event is one of the three rename observer emissions. -/
def Event.isRenameObserverEvent : Event → Bool
  | Event.onRenameCollection _ _ _ _ _ _ => true
  | Event.preRenameCollection _ _ _ _ _ _ _ => true
  | Event.postRenameCollection _ _ _ _ _ => true
  | Event.dropCollection _ _ _ => false

/-- `RenameCollectionOptions` from the header. -/
structure RenameCollectionOptions where
  dropTarget : Bool := false
  stayTemp : Bool := false
deriving DecidableEq, Repr

/-- Global state visible to the rename subsystem: catalog contents, view
catalog, database registry, sharding registry, background-operation registry,
replication flags, fresh-value counters, the insert batch size knob, the
write-conflict fail-point schedule for the cross-database copy loop, the
`useRenameCollectionPathThroughConfigsvr` fail point, and the trace of
observer/drop events. -/
structure St where
  colls : List (NS × Coll)
  views : List NS
  dbs : List String
  dropPendingDbs : List String
  shardedColls : List NS
  bgOpsNs : List String
  writesReplicated : Bool
  canAcceptWrites : Bool
  replModeNone : Bool
  oplogDisabledNss : List NS
  nextUuid : Nat
  nextTmp : Nat
  nextOpTime : Nat
  batchSize : Nat
  wceSchedule : List Bool
  fpConfigsvr : Bool
  events : List Event
deriving DecidableEq, Repr

/-- The empty state, used as the `Inhabited` default. -/
def emptySt : St :=
  { colls := [], views := [], dbs := [], dropPendingDbs := [], shardedColls := []
    bgOpsNs := [], writesReplicated := false, canAcceptWrites := false
    replModeNone := true, oplogDisabledNss := [], nextUuid := 0, nextTmp := 0
    nextOpTime := 0, batchSize := 1, wceSchedule := [], fpConfigsvr := false
    events := [] }

instance : Inhabited St := ⟨emptySt⟩

/-- Result of one of the rename routines: success with the new state, a typed
error with the state at the return point, or a fatal invariant violation
(`invariant` / `LOGV2_FATAL`), tagged with the source line of the assertion. -/
inductive Outcome
  | ok (st : St)
  | err (code : ErrorCode) (st : St)
  | fatal (tag : Nat)
deriving DecidableEq, Repr

/-- Whether an outcome is a success. -/
def Outcome.isOk : Outcome → Bool
  | Outcome.ok _ => true
  | _ => false

/-- Whether an outcome is the `BadValue` error. -/
def Outcome.isBadValue : Outcome → Bool
  | Outcome.err ErrorCode.BadValue _ => true
  | _ => false

/-- Fatal tags, named after the source line of the corresponding `invariant`
(or the log id 40616 for the `LOGV2_FATAL`).  Tags 998/999 are model-internal
and unreachable under the theorems' hypotheses. -/
def invTagWithinDBDbsDiffer : Nat := 293

def invTagApplyOpsDbsDiffer : Nat := 351

def invTagBetweenDBsDbsEqual : Nat := 459

def invTagSourceEqTarget : Nat := 527

def fatalTagBgOpSource : Nat := 128

def fatalTagIndexBuildSource : Nat := 129

def invTagDropTarget : Nat := 235

def invTagWritesReplicated : Nat := 243

def invTagApplyOpsOpTimeNonNull : Nat := 244

def fatalTagRenameOpTimeWritten : Nat := 40616

def fatalTagBgOpTarget : Nat := 270

def fatalTagIndexBuildTarget : Nat := 271

def invTagApplyOpsDropTarget : Nat := 419

def invTagDropNsDb : Nat := 422

def fatalTagSourceMissingAfterCheck : Nat := 998

def fatalTagCopyFuel : Nat := 999

/-- Catalog lookup by namespace (`CollectionCatalog::lookupCollectionByNamespace`). -/
def lookupColl (colls : List (NS × Coll)) (ns : NS) : Option Coll :=
  (colls.find? (fun p => p.1 == ns)).map Prod.snd

/-- Catalog lookup by UUID (`CollectionCatalog::lookupNSSByUUID`, wrapped by
the file-local `getNamespaceFromUUID`). -/
def lookupNssByUuid (colls : List (NS × Coll)) (u : Nat) : Option NS :=
  (colls.find? (fun p => p.2.uuid == u)).map Prod.fst

/-- View catalog lookup (`ViewCatalog::lookup`). -/
def viewExists (st : St) (ns : NS) : Bool := st.views.contains ns

/-- Model of the file-local `isCollectionSharded`. -/
def isCollectionSharded (st : St) (ns : NS) : Bool := st.shardedColls.contains ns

/-- Model of `ReplicationCoordinator::isOplogDisabledFor`. -/
def isOplogDisabledFor (st : St) (ns : NS) : Bool :=
  st.replModeNone || st.oplogDisabledNss.contains ns

/-- The file-local `isReplicatedChanged`: source and target straddle the
replicated/unreplicated boundary. -/
def isReplicatedChanged (st : St) (source target : NS) : Bool :=
  isOplogDisabledFor st source != isOplogDisabledFor st target

/-- Model of `BackgroundOperation::assertNoBgOpInProgForNs`'s tested
condition: a background operation is registered for the namespace string. -/
def bgOpInProgForNs (st : St) (ns : NS) : Bool := st.bgOpsNs.contains ns.toNsString

/-- Model of `IndexBuildsCoordinator::assertNoIndexBuildInProgForCollection`'s
tested condition: an in-progress index build corresponds to an index of the
collection that is not yet ready. -/
def indexBuildInProgFor (c : Coll) : Bool := c.indexes.any (fun ix => !ix.ready)

/-- Model of `Database::dropCollection` / `dropCollectionForApplyOps` effect:
remove the namespace from the catalog and record the drop with the optime it
was given and the replication status at the call site. -/
def dropCollectionModel (st : St) (ns : NS) (optime : Option Nat)
    (replicated : Bool) : St :=
  { st with colls := st.colls.filter (fun p => p.1 != ns)
            events := st.events ++ [Event.dropCollection ns optime replicated] }

/-- Model of `Database::renameCollection(source, target, stayTemp)`: fails if
the source is missing or the target exists, otherwise rebinds the catalog
entry (preserving the UUID, clearing the temp flag unless `stayTemp`). -/
def dbRenameCollection (st : St) (fromNs toNs : NS) (stayTemp : Bool) :
    Except ErrorCode St :=
  match lookupColl st.colls fromNs with
  | none => Except.error ErrorCode.NamespaceNotFound
  | some c =>
      match lookupColl st.colls toNs with
      | some _ => Except.error ErrorCode.NamespaceExists
      | none =>
          Except.ok { st with
            colls := (toNs, { c with temp := c.temp && stayTemp }) ::
              st.colls.filter (fun p => p.1 != fromNs) }

/-- Model of `OpObserver::preRenameCollection`: writes (and returns the optime
of) an oplog entry exactly when writes are replicated and the oplog is not
disabled for the target; always records being called. -/
def preRenameCollection (st : St) (source target : NS) (uuid : Option Nat)
    (dropTargetUUID : Option Nat) (numRecords : Nat) (stayTemp : Bool) :
    Option Nat × St :=
  if st.writesReplicated && !isOplogDisabledFor st target then
    (some st.nextOpTime,
      { st with nextOpTime := st.nextOpTime + 1
                events := st.events ++ [Event.preRenameCollection source target
                  uuid dropTargetUUID numRecords stayTemp (some st.nextOpTime)] })
  else
    (none,
      { st with events := st.events ++ [Event.preRenameCollection source target
          uuid dropTargetUUID numRecords stayTemp none] })

/-- Model of `userAllowedWriteNS` (command-layer namespace check, an external
collaborator): rejects empty and `system.` collections with
`InvalidNamespace`. -/
def userAllowedWriteNS (ns : NS) : Except ErrorCode Unit :=
  if ns.coll.isEmpty then Except.error ErrorCode.InvalidNamespace
  else if systemPfx.isPrefixOf ns.coll then Except.error ErrorCode.InvalidNamespace
  else Except.ok ()

/-- Outcome of the precondition checker. -/
inductive CheckResult
  | okC
  | errC (code : ErrorCode)
  | fatalC (tag : Nat)
deriving DecidableEq, Repr

/-- `checkSourceAndTargetNamespaces` (lines 90-147), check for check in source
order: primary-ness, source shardedness (unless the configsvr fail point is
active), replicated parity, source database existence, source resolution
(collection, else view, else missing), the two quiescence assertions, and the
target checks of lines 131-144. -/
def checkSourceAndTargetNamespaces (st : St) (source target : NS)
    (options : RenameCollectionOptions) (targetExistsAllowed : Bool) :
    CheckResult :=
  if st.writesReplicated && !st.canAcceptWrites then
    CheckResult.errC ErrorCode.NotMaster
  else if !st.fpConfigsvr && isCollectionSharded st source then
    CheckResult.errC ErrorCode.IllegalOperation
  else if isReplicatedChanged st source target then
    CheckResult.errC ErrorCode.IllegalOperation
  else if !(st.dbs.contains source.db) || st.dropPendingDbs.contains source.db then
    CheckResult.errC ErrorCode.NamespaceNotFound
  else
    match lookupColl st.colls source with
    | none =>
        if viewExists st source then CheckResult.errC ErrorCode.CommandNotSupportedOnView
        else CheckResult.errC ErrorCode.NamespaceNotFound
    | some sourceColl =>
        if bgOpInProgForNs st source then CheckResult.fatalC fatalTagBgOpSource
        else if indexBuildInProgFor sourceColl then
          CheckResult.fatalC fatalTagIndexBuildSource
        else
          match lookupColl st.colls target with
          | none =>
              if viewExists st target then CheckResult.errC ErrorCode.NamespaceExists
              else CheckResult.okC
          | some _ =>
              if isCollectionSharded st target then
                CheckResult.errC ErrorCode.IllegalOperation
              else if !targetExistsAllowed && !options.dropTarget then
                CheckResult.errC ErrorCode.NamespaceExists
              else CheckResult.okC

/-- Lock-order decision of `renameCollectionWithinDB` (lines 304-318): the
pair (first locked, second locked) of the two exclusive collection locks,
parameterised by the stable lock-resource id derived from the namespace
string (`ResourceId(RESOURCE_COLLECTION, ns)`). -/
def lockOrderForWithinDBRename (rid : String → Nat) (source target : NS) :
    NS × NS :=
  if !source.isSystemDotViews &&
      (target.isSystemDotViews || rid source.toNsString < rid target.toNsString)
  then (source, target)
  else (target, source)

/-- `renameCollectionDirectly` (lines 191-221): rebind the catalog entry under
an unreplicated-writes block, then emit a single `onRenameCollection` with no
dropped-target UUID and a zero dropped-record count.  A failed rebind rolls
the write unit back, leaving the original state. -/
def renameCollectionDirectly (st : St) (uuid : Option Nat) (source target : NS)
    (options : RenameCollectionOptions) : Outcome :=
  match dbRenameCollection st source target options.stayTemp with
  | Except.error code => Outcome.err code st
  | Except.ok st1 =>
      Outcome.ok { st1 with events := st1.events ++
        [Event.onRenameCollection source target uuid none 0 options.stayTemp] }

/-- Commit phase of `renameCollectionAndDropTarget` (lines 267-285): the two
quiescence assertions on the victim, the drop with the chosen optime under an
unreplicated-writes block, the rebind, and `postRenameCollection`.  `st0` is
the state to which a failed write unit rolls back, `st1` the state after
`preRenameCollection`. -/
def renameAndDropTargetCommit (st0 st1 : St) (uuid : Option Nat)
    (source target targetCollNs : NS) (targetColl : Coll)
    (options : RenameCollectionOptions) (renameOpTime : Option Nat) : Outcome :=
  if bgOpInProgForNs st1 targetCollNs then Outcome.fatal fatalTagBgOpTarget
  else if indexBuildInProgFor targetColl then Outcome.fatal fatalTagIndexBuildTarget
  else
    let st2 := dropCollectionModel st1 targetCollNs renameOpTime false
    match dbRenameCollection st2 source target options.stayTemp with
    | Except.error code => Outcome.err code st0
    | Except.ok st3 =>
        Outcome.ok { st3 with events := st3.events ++
          [Event.postRenameCollection source target uuid (some targetColl.uuid)
            options.stayTemp] }

/-- `renameCollectionAndDropTarget` (lines 223-287).  `targetCollNs` is
`targetColl->ns()` (which in the apply-ops path may differ from `target`).
The invariants of lines 235 and 242-245 are fatal; a non-null observer optime
together with a supplied apply-ops optime is the fatal log 40616. -/
def renameCollectionAndDropTarget (st : St) (uuid : Option Nat)
    (source target targetCollNs : NS) (targetColl : Coll)
    (options : RenameCollectionOptions)
    (renameOpTimeFromApplyOps : Option Nat) : Outcome :=
  if !options.dropTarget then Outcome.fatal invTagDropTarget
  else if !(isOplogDisabledFor st target) && !st.writesReplicated then
    Outcome.fatal invTagWritesReplicated
  else if !(isOplogDisabledFor st target) && renameOpTimeFromApplyOps.isSome then
    Outcome.fatal invTagApplyOpsOpTimeNonNull
  else
    let pre := preRenameCollection st source target uuid (some targetColl.uuid)
      targetColl.docs.length options.stayTemp
    match renameOpTimeFromApplyOps with
    | some t =>
        if pre.1.isSome then Outcome.fatal fatalTagRenameOpTimeWritten
        else renameAndDropTargetCommit st pre.2 uuid source target targetCollNs
          targetColl options (some t)
    | none =>
        renameAndDropTargetCommit st pre.2 uuid source target targetCollNs
          targetColl options pre.1

/-- `renameCollectionWithinDB` (lines 289-343): precondition check with
`targetExistsAllowed = false`, then dispatch on whether the target resolves.
The lock acquisitions (whose order is `lockOrderForWithinDBRename`) do not
change catalog state and are not otherwise modelled. -/
def renameCollectionWithinDB (st : St) (source target : NS)
    (options : RenameCollectionOptions) : Outcome :=
  if source.db != target.db then Outcome.fatal invTagWithinDBDbsDiffer
  else
    match checkSourceAndTargetNamespaces st source target options false with
    | CheckResult.errC code => Outcome.err code st
    | CheckResult.fatalC tag => Outcome.fatal tag
    | CheckResult.okC =>
        match lookupColl st.colls source with
        | none => Outcome.fatal fatalTagSourceMissingAfterCheck
        | some sourceColl =>
            match lookupColl st.colls target with
            | none =>
                renameCollectionDirectly st (some sourceColl.uuid) source target
                  options
            | some targetColl =>
                renameCollectionAndDropTarget st (some sourceColl.uuid) source
                  target target targetColl options none

/-- `renameTargetCollectionToTmp` (lines 149-189): under an unreplicated-writes
block, generate a unique `tmp<hex>.rename` name and rebind the target to it
with `stayTemp = true`.  A failed rebind rolls back to the input state. -/
def renameTargetCollectionToTmp (st : St) (targetNs : NS) : Outcome :=
  let tmpName : NS := { db := targetNs.db
                        coll := "tmp" ++ Nat.repr st.nextTmp ++ ".rename" }
  let st1 := { st with nextTmp := st.nextTmp + 1 }
  match dbRenameCollection st1 targetNs tmpName true with
  | Except.error code => Outcome.err code st
  | Except.ok st2 => Outcome.ok st2

/-- Final dispatch of `renameCollectionWithinDBForApplyOps` (lines 428-451):
no surviving target collection means a direct rename; a surviving target that
is the source itself (pointer equality of the catalog entries, i.e. the same
namespace) is a committed no-op; otherwise swap-drop with the apply-ops
optime. -/
def applyOpsRenameFinish (st : St) (source target : NS) (sourceColl : Coll)
    (renameOpTimeFromApplyOps : Option Nat) (options : RenameCollectionOptions)
    (tc : Option (NS × Coll)) : Outcome :=
  match tc with
  | none => renameCollectionDirectly st (some sourceColl.uuid) source target options
  | some (tns, tcoll) =>
      if tns == source then Outcome.ok st
      else renameCollectionAndDropTarget st (some sourceColl.uuid) source target
        tns tcoll options renameOpTimeFromApplyOps

/-- Re-resolution block of `renameCollectionWithinDBForApplyOps` (lines
414-426): with no surviving target but a `uuidToDrop`, the drop victim is
re-identified by UUID (asserting `options.dropTarget` and that the victim is
in the target's database). -/
def applyOpsRenamePhase2 (st : St) (source target : NS) (sourceColl : Coll)
    (uuidToDrop : Option Nat) (renameOpTimeFromApplyOps : Option Nat)
    (options : RenameCollectionOptions) (tc : Option (NS × Coll)) : Outcome :=
  match tc, uuidToDrop with
  | none, some ud =>
      if !options.dropTarget then Outcome.fatal invTagApplyOpsDropTarget
      else
        match lookupNssByUuid st.colls ud with
        | some dropNs =>
            if dropNs.isDropPendingNamespace then
              applyOpsRenameFinish st source target sourceColl
                renameOpTimeFromApplyOps options none
            else if dropNs.db != target.db then Outcome.fatal invTagDropNsDb
            else
              match lookupColl st.colls dropNs with
              | some c =>
                  applyOpsRenameFinish st source target sourceColl
                    renameOpTimeFromApplyOps options (some (dropNs, c))
              | none =>
                  applyOpsRenameFinish st source target sourceColl
                    renameOpTimeFromApplyOps options none
        | none =>
            applyOpsRenameFinish st source target sourceColl
              renameOpTimeFromApplyOps options none
  | _, _ =>
      applyOpsRenameFinish st source target sourceColl renameOpTimeFromApplyOps
        options tc

/-- `renameCollectionWithinDBForApplyOps` (lines 345-453): precondition check
with `targetExistsAllowed = true`; then, when the target resolves with the
same UUID as the source, the idempotent re-apply handling of lines 381-403
(trivial commit, or drop of the `uuidToDrop` victim with replication
suppressed under the apply-ops optime); when it resolves with a different
UUID not identified by `uuidToDrop`, the target is moved aside to a temporary
name; finally the re-resolution block and the dispatch. -/
def renameCollectionWithinDBForApplyOps (st : St) (source target : NS)
    (uuidToDrop : Option Nat) (renameOpTimeFromApplyOps : Option Nat)
    (options : RenameCollectionOptions) : Outcome :=
  if source.db != target.db then Outcome.fatal invTagApplyOpsDbsDiffer
  else
    match checkSourceAndTargetNamespaces st source target options true with
    | CheckResult.errC code => Outcome.err code st
    | CheckResult.fatalC tag => Outcome.fatal tag
    | CheckResult.okC =>
        match lookupColl st.colls source with
        | none => Outcome.fatal fatalTagSourceMissingAfterCheck
        | some sourceColl =>
            match lookupColl st.colls target with
            | some targetColl =>
                if sourceColl.uuid == targetColl.uuid then
                  match uuidToDrop with
                  | none => Outcome.ok st
                  | some ud =>
                      if ud == targetColl.uuid then Outcome.ok st
                      else
                        match lookupNssByUuid st.colls ud with
                        | none => Outcome.ok st
                        | some dropNs =>
                            Outcome.ok (dropCollectionModel st dropNs
                              renameOpTimeFromApplyOps false)
                else
                  if uuidToDrop.isNone || uuidToDrop != some targetColl.uuid then
                    match renameTargetCollectionToTmp st target with
                    | Outcome.ok st1 =>
                        applyOpsRenamePhase2 st1 source target sourceColl
                          uuidToDrop renameOpTimeFromApplyOps options none
                    | Outcome.err code st1 => Outcome.err code st1
                    | Outcome.fatal tag => Outcome.fatal tag
                  else
                    applyOpsRenamePhase2 st source target sourceColl uuidToDrop
                      renameOpTimeFromApplyOps options (some (target, targetColl))
            | none =>
                applyOpsRenamePhase2 st source target sourceColl uuidToDrop
                  renameOpTimeFromApplyOps options none

/-- Cursor operations recorded by the bulk-copy loop: `seekExact`, `save`, and
the scope-guarded `restore`. -/
inductive CursorOp
  | seek (rid : Nat)
  | save
  | restore
deriving DecidableEq, Repr

/-- Model of `RecordCursor::next`: the record at the cursor position (if any)
and the advanced position. -/
def cursorNext (docs : List Rec) (pos : Nat) : Option Rec × Nat :=
  (docs.get? pos, pos + 1)

/-- Helper for `seekExact`: scan for the record with the given id, carrying
the absolute position. -/
def seekExactAux (rid : Nat) : List Rec → Nat → Option Rec × Nat
  | [], n => (none, n)
  | r :: rest, n =>
      if r.id == rid then (some r, n + 1) else seekExactAux rid rest (n + 1)

/-- Model of `RecordCursor::seekExact`: position the cursor at the record with
the given record id, returning it and the position of the next unread
record. -/
def seekExact (docs : List Rec) (rid : Nat) : Option Rec × Nat :=
  seekExactAux rid docs 0

/-- The reset at line 672: if the write-conflict retry re-enters the batch
body with the cursor moved off the record that began the batch (`!record ||
beginBatchId != record->id`), `seekExact` back to it.  Also returns the
cursor operations performed. -/
def repositionIfNeeded (docs : List Rec) (bbid : Nat) (record : Option Rec)
    (pos : Nat) : (Option Rec × Nat) × List CursorOp :=
  match record with
  | none => (seekExact docs bbid, [CursorOp.seek bbid])
  | some r =>
      if bbid != r.id then (seekExact docs bbid, [CursorOp.seek bbid])
      else ((record, pos), [])

/-- The insert loop of lines 675-683: insert up to `batchSize` documents,
advancing the cursor after each. -/
def insertLoop (docs : List Rec) : Option Rec → Nat → Nat → List Nat × Option Rec × Nat
  | record, pos, 0 => ([], record, pos)
  | none, pos, _ + 1 => ([], none, pos)
  | some r, pos, bs + 1 =>
      let nx := cursorNext docs pos
      let rest := insertLoop docs nx.1 nx.2 bs
      (r.data :: rest.1, rest.2.1, rest.2.2)

/-- One execution of the batch body (lines 669-701): conditional `seekExact`,
the insert loop, then `cursor->save()` and the `ON_BLOCK_EXIT` scope-guarded
`cursor->restore()` which runs on both the commit exit and the
write-conflict exit. -/
structure AttemptRes where
  inserted : List Nat
  record : Option Rec
  pos : Nat
  ops : List CursorOp
deriving DecidableEq, Repr

/-- Runs the batch body once; see `AttemptRes`. -/
def oneAttempt (docs : List Rec) (bs : Nat) (bbid : Nat) (record : Option Rec)
    (pos : Nat) : AttemptRes :=
  let rp := repositionIfNeeded docs bbid record pos
  let il := insertLoop docs rp.1.1 rp.1.2 bs
  { inserted := il.1, record := il.2.1, pos := il.2.2
    ops := rp.2 ++ [CursorOp.save, CursorOp.restore] }

/-- Result of running one batch to a committed conclusion through the
write-conflict retry loop. -/
structure BatchRes where
  inserted : List Nat
  record : Option Rec
  pos : Nat
  sched : List Bool
  ops : List CursorOp
deriving DecidableEq, Repr

/-- The `writeConflictRetry` wrapper around the batch body: each attempt
consumes one entry of the fail-point schedule (an exhausted schedule means no
conflict); a conflicting attempt discards its inserts (the write unit rolls
back) and re-runs the body, whose conditional `seekExact` repositions the
cursor. -/
def runBatchRetry (docs : List Rec) (bs : Nat) (bbid : Nat) :
    Option Rec → Nat → List Bool → BatchRes
  | record, pos, [] =>
      let a := oneAttempt docs bs bbid record pos
      { inserted := a.inserted, record := a.record, pos := a.pos, sched := []
        ops := a.ops }
  | record, pos, b :: rest =>
      let a := oneAttempt docs bs bbid record pos
      if b then
        let r := runBatchRetry docs bs bbid a.record a.pos rest
        { r with ops := a.ops ++ r.ops }
      else
        { inserted := a.inserted, record := a.record, pos := a.pos
          sched := rest, ops := a.ops }

/-- Final result of the bulk-copy loop: the copied document payloads in order
and the trace of cursor operations. -/
structure CopyRes where
  copied : List Nat
  ops : List CursorOp
deriving DecidableEq, Repr

/-- Outer loop of lines 664-705, with explicit fuel for termination (the
interrupt check at line 666 is modelled as never firing).  Each iteration
notes the record id that begins the batch and runs the batch through the
write-conflict retry loop. -/
def copyLoopAux (docs : List Rec) (bs : Nat) :
    Nat → Option Rec → Nat → List Bool → List Nat → List CursorOp →
      Option CopyRes
  | 0, _, _, _, _, _ => none
  | _ + 1, none, _, _, acc, ops => some { copied := acc, ops := ops }
  | fuel + 1, some r, pos, sched, acc, ops =>
      let b := runBatchRetry docs bs r.id (some r) pos sched
      copyLoopAux docs bs fuel b.record b.pos b.sched (acc ++ b.inserted)
        (ops ++ b.ops)

/-- The bulk-copy loop (lines 663-705): initial `cursor->next()`, then batches
until the cursor is exhausted.  `docs.length + 1` fuel suffices whenever the
batch size is positive. -/
def copyLoop (docs : List Rec) (bs : Nat) (sched : List Bool) (fuel : Nat) :
    Option CopyRes :=
  let first := cursorNext docs 0
  copyLoopAux docs bs fuel first.1 first.2 sched [] []

/-- Index-descriptor copy of lines 607-617: iterate the source's index catalog
with `includeUnfinishedIndexes = true`, skip the `_id` index, and collect the
serialized descriptors. -/
def getIndexIterator (c : Coll) (includeUnfinished : Bool) : List IndexInfo :=
  if includeUnfinished then c.indexes else c.indexes.filter (fun ix => ix.ready)

/-- The `indexesToCopy` vector of line 608. -/
def indexesToCopy (c : Coll) : List Nat :=
  ((getIndexIterator c true).filter (fun ix => !ix.isId)).map
    (fun ix => ix.infoObj)

/-- Re-insertion of the copied payloads into the staging collection: each
insert allocates a fresh record id in the new record store. -/
def enumRecs (data : List Nat) : List Rec :=
  ((List.range data.length).zip data).map (fun p => { id := p.1, data := p.2 })

/-- Copy phase of `renameBetweenDBs` (lines 543-720): open the target database
if needed, generate the unique `tmp<hex>.renameCollection` staging name,
create the staging collection with the source's options but a freshly
generated UUID, copy the non-`_id` index descriptors, bulk-copy the
documents, rename staging to target through the same-database path, and on
success drop the original source through the apply-ops drop path.  On a
failure after the staging collection exists, the scope-guarded cleanup drops
it.  The staging collection becomes visible in the catalog in one step here
because no catalog read intervenes between its creation and the final
rename in the source. -/
def renameBetweenDBsCopyPhase (st : St) (source : NS) (sourceColl : Coll)
    (target : NS) (options : RenameCollectionOptions) : Outcome :=
  let st1 := if st.dbs.contains target.db then st
             else { st with dbs := target.db :: st.dbs }
  let tmpName : NS :=
    { db := target.db
      coll := "tmp" ++ Nat.repr st1.nextTmp ++ ".renameCollection" }
  let newUuid := st1.nextUuid
  let st2 := { st1 with nextTmp := st1.nextTmp + 1, nextUuid := st1.nextUuid + 1 }
  match copyLoop sourceColl.docs st2.batchSize st2.wceSchedule
      (sourceColl.docs.length + 1) with
  | none => Outcome.fatal fatalTagCopyFuel
  | some cres =>
      let tmpColl : Coll :=
        { uuid := newUuid, temp := sourceColl.temp, options := sourceColl.options
          indexes := idIndexInfo :: (indexesToCopy sourceColl).map
            (fun d => { isId := false, ready := true, infoObj := d })
          docs := enumRecs cres.copied }
      let st5 := { st2 with colls := (tmpName, tmpColl) :: st2.colls }
      match renameCollectionWithinDB st5 tmpName target options with
      | Outcome.ok st6 => Outcome.ok (dropCollectionModel st6 source none
          st6.writesReplicated)
      | Outcome.err code st6 =>
          Outcome.err code (dropCollectionModel st6 tmpName none
            st6.writesReplicated)
      | Outcome.fatal tag => Outcome.fatal tag

/-- `renameBetweenDBs` (lines 455-720): the validation prologue of lines
459-541 (database existence, source resolution, shardedness, replicated
parity, quiescence assertions, target-exists handling including the
same-UUID invariant of line 527), then the copy phase. -/
def renameBetweenDBs (st : St) (source target : NS)
    (options : RenameCollectionOptions) : Outcome :=
  if source.db == target.db then Outcome.fatal invTagBetweenDBsDbsEqual
  else if !(st.dbs.contains source.db) then
    Outcome.err ErrorCode.NamespaceNotFound st
  else
    match lookupColl st.colls source with
    | none =>
        if viewExists st source then
          Outcome.err ErrorCode.CommandNotSupportedOnView st
        else Outcome.err ErrorCode.NamespaceNotFound st
    | some sourceColl =>
        if !st.fpConfigsvr && isCollectionSharded st source then
          Outcome.err ErrorCode.IllegalOperation st
        else if isReplicatedChanged st source target then
          Outcome.err ErrorCode.IllegalOperation st
        else if bgOpInProgForNs st source then Outcome.fatal fatalTagBgOpSource
        else if indexBuildInProgFor sourceColl then
          Outcome.fatal fatalTagIndexBuildSource
        else
          match (if st.dbs.contains target.db then lookupColl st.colls target
                 else none) with
          | some targetColl =>
              if sourceColl.uuid == targetColl.uuid then
                if source == target then Outcome.ok st
                else Outcome.fatal invTagSourceEqTarget
              else if isCollectionSharded st target then
                Outcome.err ErrorCode.IllegalOperation st
              else if !options.dropTarget then
                Outcome.err ErrorCode.NamespaceExists st
              else renameBetweenDBsCopyPhase st source sourceColl target options
          | none =>
              if st.dbs.contains target.db && viewExists st target then
                Outcome.err ErrorCode.NamespaceExists st
              else renameBetweenDBsCopyPhase st source sourceColl target options

/-- `renameCollection` (lines 815-845): reject drop-pending sources and
`system.views` participants, then dispatch on whether the databases match. -/
def renameCollection (st : St) (source target : NS)
    (options : RenameCollectionOptions) : Outcome :=
  if source.isDropPendingNamespace then
    Outcome.err ErrorCode.NamespaceNotFound st
  else if source.isSystemDotViews || target.isSystemDotViews then
    Outcome.err ErrorCode.IllegalOperation st
  else if source.db == target.db then
    renameCollectionWithinDB st source target options
  else renameBetweenDBs st source target options

/-- The already-parsed fields of the apply-ops `renameCollection` command
document (the BSON field-type checks of lines 860-885 are prior to this
model): source and target namespaces, the truthiness of `dropTarget`, and the
UUID carried by `dropTarget` when it is a BinData UUID. -/
structure ApplyOpsCmd where
  renameFrom : NS
  renameTo : NS
  dropTargetTrue : Bool
  dropTargetUuid : Option Nat
  stayTemp : Bool
deriving DecidableEq, Repr

/-- `renameCollectionForApplyOps` (lines 847-947): reject a non-null
`renameOpTime` while writes are replicated; resolve `uuidToRename` to the
current source namespace when possible; validate the target; when the source
is drop-pending or missing, downgrade to a drop of the parsed target (if
`dropTarget`) — overwritten by the `uuidToDrop` lookup when a UUID was
supplied — or fail `NamespaceNotFound`; otherwise dispatch to the
same-database apply-ops path or the cross-database path. -/
def renameCollectionForApplyOps (st : St) (uuidToRename : Option Nat)
    (cmd : ApplyOpsCmd) (renameOpTime : Option Nat) : Outcome :=
  if renameOpTime.isSome && st.writesReplicated then
    Outcome.err ErrorCode.BadValue st
  else
    let sourceNss :=
      match uuidToRename with
      | some u =>
          match lookupNssByUuid st.colls u with
          | some nss => nss
          | none => cmd.renameFrom
      | none => cmd.renameFrom
    let targetNss := cmd.renameTo
    let options : RenameCollectionOptions :=
      { dropTarget := cmd.dropTargetTrue, stayTemp := cmd.stayTemp }
    let uuidToDrop := cmd.dropTargetUuid
    match userAllowedWriteNS targetNss with
    | Except.error code => Outcome.err code st
    | Except.ok _ =>
        if st.replModeNone && targetNss.isOplog then
          Outcome.err ErrorCode.IllegalOperation st
        else
          if sourceNss.isDropPendingNamespace ||
              (lookupColl st.colls sourceNss).isNone then
            let dropTargetNss : Option NS :=
              match uuidToDrop with
              | some u => lookupNssByUuid st.colls u
              | none => if options.dropTarget then some targetNss else none
            match dropTargetNss with
            | some dns =>
                Outcome.ok (dropCollectionModel st dns renameOpTime
                  st.writesReplicated)
            | none => Outcome.err ErrorCode.NamespaceNotFound st
          else
            if sourceNss.db == targetNss.db then
              renameCollectionWithinDBForApplyOps st sourceNss targetNss
                uuidToDrop renameOpTime options
            else renameBetweenDBs st sourceNss targetNss options

/-- `renameCollectionForRollback` (lines 949-967): resolve the UUID's current
namespace (fatal if missing or in a different database) and rename in place
with default options. -/
def renameCollectionForRollback (st : St) (target : NS) (u : Nat) : Outcome :=
  match lookupNssByUuid st.colls u with
  | none => Outcome.fatal 954
  | some source =>
      if source.db != target.db then Outcome.fatal 955
      else renameCollectionWithinDB st source target {}

/-- Fixtures used by the witness theorems. -/
def wDocs : List Rec := [⟨1, 5⟩, ⟨2, 6⟩, ⟨3, 7⟩, ⟨4, 8⟩, ⟨5, 9⟩]

def wIdx7 : IndexInfo := { isId := false, ready := true, infoObj := 7 }

def wColl1 : Coll :=
  { uuid := 1, temp := false, options := 42, indexes := [idIndexInfo, wIdx7]
    docs := wDocs }

def wSt1 : St :=
  { emptySt with colls := [(⟨"d1", "x"⟩, wColl1)], dbs := ["d1", "d2"]
                 nextUuid := 5, batchSize := 2, wceSchedule := [true] }

def c2Coll : Coll :=
  { uuid := 1, temp := false, options := 0, indexes := [idIndexInfo], docs := [] }

def c2St : St :=
  { emptySt with colls := [(⟨"d1", "x"⟩, c2Coll), (⟨"d2", "y"⟩, c2Coll)]
                 dbs := ["d1", "d2"] }

def c4SourceColl : Coll :=
  { uuid := 1, temp := false, options := 0, indexes := [idIndexInfo]
    docs := [⟨0, 1⟩] }

def c4TargetColl : Coll :=
  { uuid := 2, temp := false, options := 0, indexes := [idIndexInfo]
    docs := [⟨0, 2⟩] }

def c4St : St :=
  { emptySt with colls := [(⟨"d", "s"⟩, c4SourceColl), (⟨"d", "t"⟩, c4TargetColl)]
                 dbs := ["d"] }

def c5St : St :=
  { emptySt with colls := [(⟨"d", "s"⟩, c4SourceColl), (⟨"d", "t"⟩, c4TargetColl)]
                 dbs := ["d"], shardedColls := [⟨"d", "t"⟩] }

def c6St : St := { emptySt with writesReplicated := true }

def c8Coll : Coll :=
  { uuid := 1, temp := false, options := 0
    indexes := [idIndexInfo, wIdx7, { isId := false, ready := true, infoObj := 8 }]
    docs := [] }

def c9Cmd : ApplyOpsCmd :=
  { renameFrom := ⟨"d", "gone"⟩, renameTo := ⟨"d", "t"⟩, dropTargetTrue := true
    dropTargetUuid := some 9, stayTemp := false }

def c9St : St :=
  { emptySt with colls := [(⟨"d", "t"⟩, c4TargetColl)], dbs := ["d"] }

def c10SourceColl : Coll :=
  { uuid := 7, temp := false, options := 0, indexes := [idIndexInfo], docs := [] }

def c10VictimColl : Coll :=
  { uuid := 3, temp := false, options := 0, indexes := [idIndexInfo], docs := [] }

def c10St : St :=
  { emptySt with colls := [(⟨"d", "y"⟩, c10SourceColl), (⟨"d", "z"⟩, c10VictimColl)]
                 dbs := ["d"] }

/-! Helper lemmas about catalog lookups. -/

theorem lookupColl_cons_self (colls : List (NS × Coll)) (ns : NS) (c : Coll) :
    lookupColl ((ns, c) :: colls) ns = some c := by
  simp [lookupColl]

theorem lookupColl_cons_ne (colls : List (NS × Coll)) (e : NS × Coll) (ns : NS)
    (h : e.1 ≠ ns) : lookupColl (e :: colls) ns = lookupColl colls ns := by
  simp [lookupColl, List.find?_cons_of_neg, h]

theorem lookupColl_filter_self (colls : List (NS × Coll)) (ns : NS) :
    lookupColl (colls.filter (fun p => p.1 != ns)) ns = none := by
  induction colls with
  | nil => rfl
  | cons hd tl ih =>
      by_cases h : hd.1 = ns
      · simpa [List.filter_cons, h] using ih
      · rw [List.filter_cons, if_pos (by simpa using h)]
        rw [lookupColl_cons_ne _ hd ns h]
        exact ih

theorem lookupColl_filter_ne (colls : List (NS × Coll)) (a b : NS) (h : a ≠ b) :
    lookupColl (colls.filter (fun p => p.1 != b)) a = lookupColl colls a := by
  induction colls with
  | nil => rfl
  | cons hd tl ih =>
      by_cases hb : hd.1 = b
      · rw [List.filter_cons, if_neg (by simpa using hb)]
        rw [ih, lookupColl_cons_ne _ hd a (by rw [hb]; exact fun hba => h hba.symm)]
      · rw [List.filter_cons, if_pos (by simpa using hb)]
        by_cases ha : hd.1 = a
        · cases hd with
          | mk ns c => simp at ha; subst ha; simp [lookupColl]
        · rw [lookupColl_cons_ne _ hd a ha, lookupColl_cons_ne _ hd a ha]
          exact ih

/-! Helper lemmas about the external-collaborator models. -/

theorem preRenameCollection_colls (st : St) (s t : NS) (u du : Option Nat)
    (n : Nat) (stp : Bool) :
    ((preRenameCollection st s t u du n stp).2).colls = st.colls := by
  unfold preRenameCollection
  split <;> rfl

theorem preRenameCollection_events (st : St) (s t : NS) (u du : Option Nat)
    (n : Nat) (stp : Bool) :
    ((preRenameCollection st s t u du n stp).2).events = st.events ++
      [Event.preRenameCollection s t u du n stp
        (preRenameCollection st s t u du n stp).1] := by
  unfold preRenameCollection
  split <;> rfl

theorem preRenameCollection_fst_of_unreplicated (st : St) (s t : NS)
    (u du : Option Nat) (n : Nat) (stp : Bool)
    (h : st.writesReplicated = false) :
    (preRenameCollection st s t u du n stp).1 = none := by
  unfold preRenameCollection
  simp [h]

theorem dbRenameCollection_ok_inv (st : St) (fromNs toNs : NS) (stayTemp : Bool)
    (st1 : St)
    (h : dbRenameCollection st fromNs toNs stayTemp = Except.ok st1) :
    ∃ c, lookupColl st.colls fromNs = some c ∧
      lookupColl st.colls toNs = none ∧
      st1 = { st with colls := (toNs, { c with temp := c.temp && stayTemp }) ::
        st.colls.filter (fun p => p.1 != fromNs) } := by
  unfold dbRenameCollection at h
  cases hF : lookupColl st.colls fromNs with
  | none => rw [hF] at h; cases h
  | some c =>
      rw [hF] at h
      cases hT : lookupColl st.colls toNs with
      | some d => rw [hT] at h; cases h
      | none =>
          rw [hT] at h
          injection h with h1
          exact ⟨c, rfl, rfl, h1.symm⟩

theorem renameCollectionDirectly_ok_inv (st : St) (uuid : Option Nat)
    (source target : NS) (options : RenameCollectionOptions) (st' : St)
    (h : renameCollectionDirectly st uuid source target options = Outcome.ok st') :
    ∃ st1, dbRenameCollection st source target options.stayTemp = Except.ok st1 ∧
      st' = { st1 with events := st1.events ++
        [Event.onRenameCollection source target uuid none 0 options.stayTemp] } := by
  unfold renameCollectionDirectly at h
  cases hR : dbRenameCollection st source target options.stayTemp with
  | error code => rw [hR] at h; cases h
  | ok st1 =>
      rw [hR] at h
      injection h with h1
      exact ⟨st1, rfl, h1.symm⟩

theorem renameAndDropTargetCommit_ok_inv (st0 st1 : St) (uuid : Option Nat)
    (source target tns : NS) (tcoll : Coll) (options : RenameCollectionOptions)
    (rot : Option Nat) (st' : St)
    (h : renameAndDropTargetCommit st0 st1 uuid source target tns tcoll options
      rot = Outcome.ok st') :
    ∃ st3, dbRenameCollection (dropCollectionModel st1 tns rot false) source
        target options.stayTemp = Except.ok st3 ∧
      st' = { st3 with events := st3.events ++
        [Event.postRenameCollection source target uuid (some tcoll.uuid)
          options.stayTemp] } := by
  unfold renameAndDropTargetCommit at h
  split at h
  · cases h
  · split at h
    · cases h
    · dsimp only at h
      cases hR : dbRenameCollection (dropCollectionModel st1 tns rot false)
        source target options.stayTemp with
      | error code => rw [hR] at h; cases h
      | ok st3 =>
          rw [hR] at h
          injection h with h1
          exact ⟨st3, rfl, h1.symm⟩

theorem renameCollectionAndDropTarget_ok_inv (st : St) (uuid : Option Nat)
    (source target tns : NS) (tcoll : Coll) (options : RenameCollectionOptions)
    (st' : St)
    (h : renameCollectionAndDropTarget st uuid source target tns tcoll options
      none = Outcome.ok st') :
    ∃ st3, dbRenameCollection (dropCollectionModel
        (preRenameCollection st source target uuid (some tcoll.uuid)
          tcoll.docs.length options.stayTemp).2 tns
        (preRenameCollection st source target uuid (some tcoll.uuid)
          tcoll.docs.length options.stayTemp).1 false) source target
        options.stayTemp = Except.ok st3 ∧
      st' = { st3 with events := st3.events ++
        [Event.postRenameCollection source target uuid (some tcoll.uuid)
          options.stayTemp] } := by
  unfold renameCollectionAndDropTarget at h
  split at h
  · cases h
  · split at h
    · cases h
    · split at h
      · cases h
      · exact renameAndDropTargetCommit_ok_inv _ _ _ _ _ _ _ _ _ _ h

theorem renameCollectionWithinDB_ok_uuid (st : St) (source target : NS)
    (options : RenameCollectionOptions) (st' : St) (c : Coll)
    (hok : renameCollectionWithinDB st source target options = Outcome.ok st')
    (hsrc : lookupColl st.colls source = some c) :
    ∃ cT, lookupColl st'.colls target = some cT ∧ cT.uuid = c.uuid := by
  unfold renameCollectionWithinDB at hok
  split at hok
  · cases hok
  · split at hok
    · cases hok
    · cases hok
    · split at hok
      · cases hok
      · rename_i sourceColl hsc
        rw [hsrc] at hsc
        injection hsc with hsc1
        subst hsc1
        split at hok
        · obtain ⟨st1, hR, hst'⟩ := renameCollectionDirectly_ok_inv _ _ _ _ _ _ hok
          obtain ⟨c2, hc2, _, hst1⟩ := dbRenameCollection_ok_inv _ _ _ _ _ hR
          rw [hsrc] at hc2
          injection hc2 with hc2
          subst hc2
          refine ⟨{ c with temp := c.temp && options.stayTemp }, ?_, rfl⟩
          rw [hst', hst1]
          exact lookupColl_cons_self _ _ _
        · rename_i targetColl htc
          obtain ⟨st3, hR, hst'⟩ :=
            renameCollectionAndDropTarget_ok_inv _ _ _ _ _ _ _ _ hok
          obtain ⟨c2, hc2, _, hst3⟩ := dbRenameCollection_ok_inv _ _ _ _ _ hR
          by_cases hEq : source = target
          · rw [dropCollectionModel, preRenameCollection_colls] at hc2
            dsimp only at hc2
            rw [hEq, lookupColl_filter_self] at hc2
            cases hc2
          · rw [dropCollectionModel, preRenameCollection_colls] at hc2
            dsimp only at hc2
            rw [lookupColl_filter_ne _ _ _ hEq, hsrc] at hc2
            injection hc2 with hc2
            subst hc2
            refine ⟨{ c with temp := c.temp && options.stayTemp }, ?_, rfl⟩
            rw [hst', hst3]
            exact lookupColl_cons_self _ _ _

theorem Outcome.isOk_exists (o : Outcome) (h : o.isOk = true) :
    ∃ st, o = Outcome.ok st := by
  cases o with
  | ok st => exact ⟨st, rfl⟩
  | err code st => cases h
  | fatal tag => cases h

theorem renameBetweenDBsCopyPhase_ok_facts (st : St) (source : NS)
    (sourceColl : Coll) (target : NS) (options : RenameCollectionOptions)
    (st' : St)
    (hok : renameBetweenDBsCopyPhase st source sourceColl target options =
      Outcome.ok st')
    (hdb : source.db ≠ target.db) :
    ∃ cT, lookupColl st'.colls target = some cT ∧ cT.uuid = st.nextUuid ∧
      lookupColl st'.colls source = none := by
  have hst : target ≠ source := fun h => hdb (by rw [h])
  have hts : source ≠ target := fun h => hdb (by rw [h])
  unfold renameBetweenDBsCopyPhase at hok
  dsimp only at hok
  by_cases hdbs : st.dbs.contains target.db = true
  · simp only [hdbs, if_true] at hok
    split at hok
    · cases hok
    · split at hok
      · rename_i st6 hwithin
        injection hok with hok1
        subst hok1
        obtain ⟨cT, hT, hU⟩ := renameCollectionWithinDB_ok_uuid _ _ _ _ _ _
          hwithin (lookupColl_cons_self _ _ _)
        refine ⟨cT, ?_, hU, ?_⟩
        · rw [dropCollectionModel]
          dsimp only
          rw [lookupColl_filter_ne _ _ _ hst]
          exact hT
        · rw [dropCollectionModel]
          dsimp only
          exact lookupColl_filter_self _ _
      · cases hok
      · cases hok
  · simp only [hdbs, if_false, Bool.false_eq_true] at hok
    split at hok
    · cases hok
    · split at hok
      · rename_i st6 hwithin
        injection hok with hok1
        subst hok1
        obtain ⟨cT, hT, hU⟩ := renameCollectionWithinDB_ok_uuid _ _ _ _ _ _
          hwithin (lookupColl_cons_self _ _ _)
        refine ⟨cT, ?_, hU, ?_⟩
        · rw [dropCollectionModel]
          dsimp only
          rw [lookupColl_filter_ne _ _ _ hst]
          exact hT
        · rw [dropCollectionModel]
          dsimp only
          exact lookupColl_filter_self _ _
      · cases hok
      · cases hok

theorem renameBetweenDBs_ok_facts (st : St) (source target : NS)
    (options : RenameCollectionOptions) (st' : St)
    (hok : renameBetweenDBs st source target options = Outcome.ok st') :
    ∃ cT, lookupColl st'.colls target = some cT ∧ cT.uuid = st.nextUuid ∧
      lookupColl st'.colls source = none := by
  unfold renameBetweenDBs at hok
  split at hok
  · cases hok
  · rename_i hdbeq
    have hdb : source.db ≠ target.db := by
      intro h
      exact hdbeq (by simp [h])
    split at hok
    · cases hok
    · split at hok
      · split at hok
        · cases hok
        · cases hok
      · rename_i sourceColl hsc
        split at hok
        · cases hok
        · split at hok
          · cases hok
          · split at hok
            · cases hok
            · split at hok
              · cases hok
              · split at hok
                · rename_i targetColl htc
                  split at hok
                  · split at hok
                    · rename_i hu hstEq
                      exact absurd (congrArg NS.db (by simpa using hstEq)) hdb
                    · cases hok
                  · split at hok
                    · cases hok
                    · split at hok
                      · cases hok
                      · exact renameBetweenDBsCopyPhase_ok_facts _ _ _ _ _ _
                          hok hdb
                · split at hok
                  · cases hok
                  · exact renameBetweenDBsCopyPhase_ok_facts _ _ _ _ _ _ hok hdb

/-- C1: for every successful same-database rename (through `renameCollection`
with `source.db = target.db`), the collection reachable under the target name
afterwards has the UUID the source collection had before; for every
successful cross-database rename (`renameBetweenDBs`), the collection under
the target name carries the freshly generated UUID (the state's next fresh
UUID), which differs from the source's, and no collection exists under the
source name afterwards. -/
theorem claimC1 :
    (∀ st source target options st' c, source.db = target.db →
        renameCollection st source target options = Outcome.ok st' →
        lookupColl st.colls source = some c →
        ∃ cT, lookupColl st'.colls target = some cT ∧ cT.uuid = c.uuid)
  ∧ (∀ st source target options st' c,
        renameBetweenDBs st source target options = Outcome.ok st' →
        lookupColl st.colls source = some c → c.uuid ≠ st.nextUuid →
        ∃ cT, lookupColl st'.colls target = some cT ∧ cT.uuid = st.nextUuid ∧
          cT.uuid ≠ c.uuid ∧ lookupColl st'.colls source = none) := by
  constructor
  · intro st source target options st' c hdb hok hsrc
    unfold renameCollection at hok
    split at hok
    · cases hok
    · split at hok
      · cases hok
      · split at hok
        · exact renameCollectionWithinDB_ok_uuid _ _ _ _ _ _ hok hsrc
        · rename_i hne
          exact absurd (by simp [hdb]) hne
  · intro st source target options st' c hok hsrc hfresh
    obtain ⟨cT, hT, hU, hS⟩ := renameBetweenDBs_ok_facts _ _ _ _ _ hok
    exact ⟨cT, hT, hU, by rw [hU]; exact fun h => hfresh h.symm, hS⟩

/-- Witness for C1: a concrete same-database rename preserving UUID 1, and a
concrete cross-database rename (with one injected write conflict during the
copy) producing the fresh UUID 5 and removing the source. -/
theorem claimC1_witness :
    (renameCollection wSt1 ⟨"d1", "x"⟩ ⟨"d1", "y"⟩ {}).isOk = true
  ∧ (renameBetweenDBs wSt1 ⟨"d1", "x"⟩ ⟨"d2", "x"⟩ {}).isOk = true
  ∧ (∃ st', renameCollection wSt1 ⟨"d1", "x"⟩ ⟨"d1", "y"⟩ {} = Outcome.ok st' ∧
      ∃ cT, lookupColl st'.colls ⟨"d1", "y"⟩ = some cT ∧ cT.uuid = wColl1.uuid)
  ∧ (∃ st', renameBetweenDBs wSt1 ⟨"d1", "x"⟩ ⟨"d2", "x"⟩ {} = Outcome.ok st' ∧
      ∃ cT, lookupColl st'.colls ⟨"d2", "x"⟩ = some cT ∧
        cT.uuid = wSt1.nextUuid ∧ cT.uuid ≠ wColl1.uuid ∧
        lookupColl st'.colls ⟨"d1", "x"⟩ = none) := by
  refine ⟨by decide, by decide, ?_, ?_⟩
  · obtain ⟨st', h⟩ := Outcome.isOk_exists _ (by decide :
      (renameCollection wSt1 ⟨"d1", "x"⟩ ⟨"d1", "y"⟩ {}).isOk = true)
    exact ⟨st', h, claimC1.1 wSt1 ⟨"d1", "x"⟩ ⟨"d1", "y"⟩ {} st' wColl1 rfl h
      (by decide)⟩
  · obtain ⟨st', h⟩ := Outcome.isOk_exists _ (by decide :
      (renameBetweenDBs wSt1 ⟨"d1", "x"⟩ ⟨"d2", "x"⟩ {}).isOk = true)
    exact ⟨st', h, claimC1.2 wSt1 ⟨"d1", "x"⟩ ⟨"d2", "x"⟩ {} st' wColl1 h
      (by decide) (by decide)⟩

/-- C2 counterexample: a state in which the cross-database target names a live
collection with the same UUID as the source.  The claim says the rename is a
trivial success; the code instead hits `invariant(source == target)` (line
527), which cannot hold across databases, so the outcome is fatal, not
success. -/
theorem claimC2_counterexample :
    lookupColl c2St.colls ⟨"d1", "x"⟩ = some c2Coll
  ∧ lookupColl c2St.colls ⟨"d2", "y"⟩ = some c2Coll
  ∧ renameBetweenDBs c2St ⟨"d1", "x"⟩ ⟨"d2", "y"⟩ {} =
      Outcome.fatal invTagSourceEqTarget
  ∧ (renameBetweenDBs c2St ⟨"d1", "x"⟩ ⟨"d2", "y"⟩ {}).isOk = false := by
  refine ⟨by decide, by decide, by decide, by decide⟩

/-- C2 (amended): in `renameBetweenDBs`, when the target names a live
collection whose UUID equals the source collection's UUID, the code asserts
`source == target`; since a cross-database call always has
`source.db ≠ target.db`, the operation terminates with that fatal invariant
rather than returning success — the trivial re-apply success exists only in
the same-database apply-ops path. -/
theorem claimC2_amended (st : St) (source target : NS)
    (options : RenameCollectionOptions) (sc tc : Coll)
    (hdb : source.db ≠ target.db)
    (h1 : st.dbs.contains source.db = true)
    (h2 : lookupColl st.colls source = some sc)
    (h3 : (!st.fpConfigsvr && isCollectionSharded st source) = false)
    (h4 : isReplicatedChanged st source target = false)
    (h5 : bgOpInProgForNs st source = false)
    (h6 : indexBuildInProgFor sc = false)
    (h7 : st.dbs.contains target.db = true)
    (h8 : lookupColl st.colls target = some tc)
    (h9 : sc.uuid = tc.uuid) :
    renameBetweenDBs st source target options =
      Outcome.fatal invTagSourceEqTarget := by
  have hdbeq : (source.db == target.db) = false := by
    simp [hdb]
  have hnst : (source == target) = false := by
    have : source ≠ target := fun h => hdb (congrArg NS.db h)
    simp [this]
  unfold renameBetweenDBs
  rw [hdbeq]
  simp only [Bool.false_eq_true, if_false, h1, Bool.not_true, h2, h3, h4, h5,
    h6, h7, if_true, h8, h9, beq_self_eq_true, hnst]

/-- Witness for the amended C2 at the counterexample state. -/
theorem claimC2_amended_witness :
    ("d1" : String) ≠ "d2"
  ∧ lookupColl c2St.colls ⟨"d1", "x"⟩ = some c2Coll
  ∧ lookupColl c2St.colls ⟨"d2", "y"⟩ = some c2Coll
  ∧ c2Coll.uuid = c2Coll.uuid
  ∧ renameBetweenDBs c2St ⟨"d1", "x"⟩ ⟨"d2", "y"⟩ { dropTarget := true } =
      Outcome.fatal invTagSourceEqTarget := by
  refine ⟨by decide, by decide, by decide, rfl, ?_⟩
  exact claimC2_amended c2St ⟨"d1", "x"⟩ ⟨"d2", "y"⟩ { dropTarget := true }
    c2Coll c2Coll (by decide) (by decide) (by decide) (by decide) (by decide)
    (by decide) (by decide) (by decide) (by decide) rfl

/-- C5: in the precondition checker, once the source-side checks pass, a
target that resolves to a collection fails `IllegalOperation` when sharded
and `NamespaceExists` when neither `targetExistsAllowed` nor
`options.dropTarget` holds; a target that resolves to a view (and not a
collection) fails `NamespaceExists`. -/
theorem claimC5 (st : St) (source target : NS)
    (options : RenameCollectionOptions) (tEA : Bool) (sc : Coll)
    (h1 : (st.writesReplicated && !st.canAcceptWrites) = false)
    (h2 : (!st.fpConfigsvr && isCollectionSharded st source) = false)
    (h3 : isReplicatedChanged st source target = false)
    (h4 : st.dbs.contains source.db = true)
    (h5 : st.dropPendingDbs.contains source.db = false)
    (h6 : lookupColl st.colls source = some sc)
    (h7 : bgOpInProgForNs st source = false)
    (h8 : indexBuildInProgFor sc = false) :
    (∀ tc, lookupColl st.colls target = some tc →
        isCollectionSharded st target = true →
        checkSourceAndTargetNamespaces st source target options tEA =
          CheckResult.errC ErrorCode.IllegalOperation)
  ∧ (∀ tc, lookupColl st.colls target = some tc →
        isCollectionSharded st target = false → tEA = false →
        options.dropTarget = false →
        checkSourceAndTargetNamespaces st source target options tEA =
          CheckResult.errC ErrorCode.NamespaceExists)
  ∧ (lookupColl st.colls target = none → viewExists st target = true →
        checkSourceAndTargetNamespaces st source target options tEA =
          CheckResult.errC ErrorCode.NamespaceExists) := by
  refine ⟨?_, ?_, ?_⟩
  · intro tc htc hsh
    unfold checkSourceAndTargetNamespaces
    simp only [h1, h2, h3, h4, h5, h6, h7, h8, hsh, htc, Bool.not_true,
      Bool.false_or, Bool.or_false, Bool.false_eq_true, if_false, if_true]
  · intro tc htc hsh hEA hdt
    unfold checkSourceAndTargetNamespaces
    simp only [h1, h2, h3, h4, h5, h6, h7, h8, hsh, htc, hEA, hdt,
      Bool.not_true, Bool.not_false, Bool.false_or, Bool.or_false,
      Bool.true_and, Bool.and_true, Bool.false_eq_true, if_false, if_true]
  · intro htc hv
    unfold checkSourceAndTargetNamespaces
    simp only [h1, h2, h3, h4, h5, h6, h7, h8, htc, hv, Bool.not_true,
      Bool.false_or, Bool.or_false, Bool.false_eq_true, if_false, if_true]

/-- Witness for C5: a sharded target collection fails `IllegalOperation`. -/
theorem claimC5_witness :
    lookupColl c5St.colls ⟨"d", "s"⟩ = some c4SourceColl
  ∧ lookupColl c5St.colls ⟨"d", "t"⟩ = some c4TargetColl
  ∧ isCollectionSharded c5St ⟨"d", "t"⟩ = true
  ∧ checkSourceAndTargetNamespaces c5St ⟨"d", "s"⟩ ⟨"d", "t"⟩ {} false =
      CheckResult.errC ErrorCode.IllegalOperation := by
  refine ⟨by decide, by decide, by decide, ?_⟩
  exact (claimC5 c5St ⟨"d", "s"⟩ ⟨"d", "t"⟩ {} false c4SourceColl (by decide)
    (by decide) (by decide) (by decide) (by decide) (by decide) (by decide)
    (by decide)).1 c4TargetColl (by decide) (by decide)

/-- C6: `renameCollectionForApplyOps` returns `BadValue` for a non-null
`renameOpTime` when writes are replicated; a successful outcome with a
non-null `renameOpTime` implies writes are not replicated. -/
theorem claimC6 (st : St) (uuidToRename : Option Nat) (cmd : ApplyOpsCmd)
    (t : Nat) :
    (st.writesReplicated = true →
      renameCollectionForApplyOps st uuidToRename cmd (some t) =
        Outcome.err ErrorCode.BadValue st)
  ∧ ((renameCollectionForApplyOps st uuidToRename cmd (some t)).isOk = true →
      st.writesReplicated = false) := by
  have hbad : st.writesReplicated = true →
      renameCollectionForApplyOps st uuidToRename cmd (some t) =
        Outcome.err ErrorCode.BadValue st := by
    intro h
    unfold renameCollectionForApplyOps
    simp [h]
  refine ⟨hbad, ?_⟩
  intro hok
  cases hw : st.writesReplicated with
  | false => rfl
  | true => rw [hbad hw] at hok; cases hok

/-- Witness for C6: with writes replicated, a concrete call with a non-null
optime is rejected with `BadValue`. -/
theorem claimC6_witness :
    c6St.writesReplicated = true
  ∧ renameCollectionForApplyOps c6St none c9Cmd (some 3) =
      Outcome.err ErrorCode.BadValue c6St := by
  exact ⟨rfl, (claimC6 c6St none c9Cmd 3).1 rfl⟩

/-- C7: the two exclusive collection locks of the same-database normal-mode
rename are ordered so that `system.views` is never locked before a
non-views namespace, and when neither namespace is `system.views` the locks
are taken in ascending (never descending) resource-id order, for every
resource-id assignment. -/
theorem claimC7 (rid : String → Nat) (source target : NS) :
    ((lockOrderForWithinDBRename rid source target).1.isSystemDotViews = true →
      (lockOrderForWithinDBRename rid source target).2.isSystemDotViews = true)
  ∧ (source.isSystemDotViews = false → target.isSystemDotViews = false →
      rid (lockOrderForWithinDBRename rid source target).1.toNsString ≤
        rid (lockOrderForWithinDBRename rid source target).2.toNsString ∧
      (rid source.toNsString ≠ rid target.toNsString →
        rid (lockOrderForWithinDBRename rid source target).1.toNsString <
          rid (lockOrderForWithinDBRename rid source target).2.toNsString)) := by
  unfold lockOrderForWithinDBRename
  split
  · rename_i hcond
    simp only [Bool.and_eq_true, Bool.not_eq_true', Bool.or_eq_true,
      decide_eq_true_eq] at hcond
    constructor
    · intro h1
      rw [hcond.1] at h1
      cases h1
    · intro hs ht
      rcases hcond.2 with hv | hlt
      · rw [ht] at hv; cases hv
      · exact ⟨Nat.le_of_lt hlt, fun _ => hlt⟩
  · rename_i hcond
    simp only [Bool.and_eq_true, Bool.not_eq_true', Bool.or_eq_true,
      decide_eq_true_eq, not_and, not_or, not_lt] at hcond
    constructor
    · intro h1
      by_cases hs : source.isSystemDotViews = true
      · exact hs
      · exact absurd h1 (hcond (by simpa using hs)).1
    · intro hs ht
      have hle := (hcond (by simp [hs])).2
      refine ⟨hle, fun hne => Nat.lt_of_le_of_ne hle fun h => hne h.symm⟩

/-- Witness for C7: with the string-length resource id, renaming `d.a` to the
views namespace locks the views namespace second, and two non-views
namespaces are locked in ascending id order. -/
theorem claimC7_witness :
    ((lockOrderForWithinDBRename String.length ⟨"d", "a"⟩
        ⟨"d", "system.views"⟩).1.isSystemDotViews = true →
      (lockOrderForWithinDBRename String.length ⟨"d", "a"⟩
        ⟨"d", "system.views"⟩).2.isSystemDotViews = true)
  ∧ ((⟨"d", "a"⟩ : NS).isSystemDotViews = false →
      (⟨"d", "bb"⟩ : NS).isSystemDotViews = false →
      String.length (lockOrderForWithinDBRename String.length ⟨"d", "a"⟩
          ⟨"d", "bb"⟩).1.toNsString ≤
        String.length (lockOrderForWithinDBRename String.length ⟨"d", "a"⟩
          ⟨"d", "bb"⟩).2.toNsString) := by
  constructor
  · exact (claimC7 String.length ⟨"d", "a"⟩ ⟨"d", "system.views"⟩).1
  · intro hs ht
    exact ((claimC7 String.length ⟨"d", "a"⟩ ⟨"d", "bb"⟩).2 hs ht).1

/-- C8: with no in-progress index build on the source (every index ready),
the descriptors collected for the staging collection are exactly those of
the ready non-`_id` indexes of the source. -/
theorem claimC8 (c : Coll) (h : indexBuildInProgFor c = false) :
    indexesToCopy c =
      (c.indexes.filter (fun ix => ix.ready && !ix.isId)).map
        (fun ix => ix.infoObj) := by
  have hall : ∀ ix ∈ c.indexes, ix.ready = true := by
    intro ix hix
    unfold indexBuildInProgFor at h
    rw [List.any_eq_false] at h
    have := h ix hix
    simpa using this
  unfold indexesToCopy getIndexIterator
  rw [if_pos rfl]
  congr 1
  refine List.filter_congr ?_
  intro ix hix
  rw [hall ix hix, Bool.true_and]

/-- Witness for C8: a source with the `_id` index and two ready secondary
indexes copies exactly the two secondary descriptors. -/
theorem claimC8_witness :
    indexBuildInProgFor c8Coll = false
  ∧ indexesToCopy c8Coll =
      (c8Coll.indexes.filter (fun ix => ix.ready && !ix.isId)).map
        (fun ix => ix.infoObj)
  ∧ indexesToCopy c8Coll = [7, 8] := by
  exact ⟨by decide, claimC8 c8Coll (by decide), by decide⟩

theorem preRenameCollection_bgOpsNs (st : St) (s t : NS) (u du : Option Nat)
    (n : Nat) (stp : Bool) :
    ((preRenameCollection st s t u du n stp).2).bgOpsNs = st.bgOpsNs := by
  unfold preRenameCollection
  split <;> rfl

theorem preRenameCollection_events_snoc (st : St) (s t : NS) (u du : Option Nat)
    (n : Nat) (stp : Bool) :
    ∃ e, ((preRenameCollection st s t u du n stp).2).events = st.events ++ [e] := by
  unfold preRenameCollection
  split
  · exact ⟨_, rfl⟩
  · exact ⟨_, rfl⟩

/-- C4: in the swap-drop renamer, when an apply-ops optime is supplied (which
requires writes not to be replicated, under which the observer produces no
log position), that optime is the one recorded for the drop of the target,
and the fatal branch for a non-null observer position is not taken — the
operation succeeds. -/
theorem claimC4 (st : St) (uuid : Option Nat) (source target : NS)
    (targetColl : Coll) (options : RenameCollectionOptions) (t : Nat) (sc : Coll)
    (hdt : options.dropTarget = true)
    (hrep : st.writesReplicated = false)
    (hdis : isOplogDisabledFor st target = true)
    (hbg : bgOpInProgForNs st target = false)
    (hib : indexBuildInProgFor targetColl = false)
    (hsrc : lookupColl st.colls source = some sc)
    (hne : source ≠ target) :
    (preRenameCollection st source target uuid (some targetColl.uuid)
        targetColl.docs.length options.stayTemp).1 = none
  ∧ ∃ st', renameCollectionAndDropTarget st uuid source target target
        targetColl options (some t) = Outcome.ok st' ∧
      Event.dropCollection target (some t) false ∈ st'.events := by
  have hpre : (preRenameCollection st source target uuid (some targetColl.uuid)
      targetColl.docs.length options.stayTemp).1 = none :=
    preRenameCollection_fst_of_unreplicated _ _ _ _ _ _ _ hrep
  refine ⟨hpre, ?_⟩
  unfold renameCollectionAndDropTarget
  simp only [hdt, hdis, Bool.not_true, Bool.false_and, Bool.false_eq_true,
    if_false, hpre, Option.isSome_none]
  unfold renameAndDropTargetCommit
  have hbg2 : bgOpInProgForNs (preRenameCollection st source target uuid
      (some targetColl.uuid) targetColl.docs.length options.stayTemp).2 target
      = false := by
    unfold bgOpInProgForNs at hbg ⊢
    rw [preRenameCollection_bgOpsNs]
    exact hbg
  simp only [hbg2, hib, Bool.false_eq_true, if_false]
  have hl1 : lookupColl (dropCollectionModel (preRenameCollection st source
      target uuid (some targetColl.uuid) targetColl.docs.length
      options.stayTemp).2 target (some t) false).colls source = some sc := by
    rw [dropCollectionModel]
    dsimp only
    rw [preRenameCollection_colls, lookupColl_filter_ne _ _ _ hne, hsrc]
  have hl2 : lookupColl (dropCollectionModel (preRenameCollection st source
      target uuid (some targetColl.uuid) targetColl.docs.length
      options.stayTemp).2 target (some t) false).colls target = none := by
    rw [dropCollectionModel]
    dsimp only
    rw [preRenameCollection_colls]
    exact lookupColl_filter_self _ _
  unfold dbRenameCollection
  rw [hl1, hl2]
  dsimp only
  refine ⟨_, rfl, ?_⟩
  simp [dropCollectionModel]

/-- Witness for C4: a concrete apply-ops swap-drop whose drop is recorded with
the supplied optime 7. -/
theorem claimC4_witness :
    lookupColl c4St.colls ⟨"d", "s"⟩ = some c4SourceColl
  ∧ (preRenameCollection c4St ⟨"d", "s"⟩ ⟨"d", "t"⟩ (some c4SourceColl.uuid)
      (some c4TargetColl.uuid) c4TargetColl.docs.length false).1 = none
  ∧ (∃ st', renameCollectionAndDropTarget c4St (some c4SourceColl.uuid)
      ⟨"d", "s"⟩ ⟨"d", "t"⟩ ⟨"d", "t"⟩ c4TargetColl
      { dropTarget := true, stayTemp := false } (some 7) = Outcome.ok st' ∧
      Event.dropCollection ⟨"d", "t"⟩ (some 7) false ∈ st'.events) := by
  have h := claimC4 c4St (some c4SourceColl.uuid) ⟨"d", "s"⟩ ⟨"d", "t"⟩
    c4TargetColl { dropTarget := true, stayTemp := false } 7 c4SourceColl
    (by decide) (by decide) (by decide) (by decide) (by decide) (by decide)
    (by decide)
  exact ⟨by decide, h.1, h.2⟩

/-- C9: in `renameCollectionForApplyOps`, when the parsed source is
drop-pending or unresolved and a `uuidToDrop` is supplied but no live
collection carries that UUID, the call fails `NamespaceNotFound` with the
state unchanged (nothing is dropped), regardless of `dropTarget` and of the
parsed target's existence: the UUID lookup result overwrites the
parsed-target drop victim. -/
theorem claimC9 (st : St) (cmd : ApplyOpsCmd) (renameOpTime : Option Nat)
    (u : Nat)
    (h1 : (renameOpTime.isSome && st.writesReplicated) = false)
    (h2 : userAllowedWriteNS cmd.renameTo = Except.ok ())
    (h3 : (st.replModeNone && cmd.renameTo.isOplog) = false)
    (h4 : (cmd.renameFrom.isDropPendingNamespace ||
        (lookupColl st.colls cmd.renameFrom).isNone) = true)
    (h5 : cmd.dropTargetUuid = some u)
    (h6 : lookupNssByUuid st.colls u = none) :
    renameCollectionForApplyOps st none cmd renameOpTime =
      Outcome.err ErrorCode.NamespaceNotFound st := by
  unfold renameCollectionForApplyOps
  rw [h1]
  simp only [Bool.false_eq_true, if_false]
  dsimp only
  rw [h2]
  rw [h3]
  simp only [Bool.false_eq_true, if_false]
  rw [h4]
  simp only [if_true]
  rw [h5]
  dsimp only
  rw [h6]

/-- Witness for C9: a command with `dropTarget: true` against an existing
target still fails `NamespaceNotFound` when the supplied UUID resolves to no
live collection. -/
theorem claimC9_witness :
    c9Cmd.dropTargetTrue = true
  ∧ lookupColl c9St.colls c9Cmd.renameTo = some c4TargetColl
  ∧ lookupNssByUuid c9St.colls 9 = none
  ∧ renameCollectionForApplyOps c9St none c9Cmd (some 4) =
      Outcome.err ErrorCode.NamespaceNotFound c9St := by
  refine ⟨rfl, by decide, by decide, ?_⟩
  exact claimC9 c9St c9Cmd (some 4) 9 (by decide) rfl (by decide)
    (by decide) rfl (by decide)

/-- C10: in the same-database apply-ops rename, when the target exists with
the source's UUID and a different `uuidToDrop` is supplied: if no live
collection has that UUID the call commits with no state change; otherwise the
collection holding it is dropped with replication suppressed using the
apply-ops optime, and the call succeeds without any rename or rename
observer event. -/
theorem claimC10 (st : St) (source target : NS) (u : Nat) (rot : Option Nat)
    (options : RenameCollectionOptions) (sc tc : Coll)
    (hdb : source.db = target.db)
    (h1 : (st.writesReplicated && !st.canAcceptWrites) = false)
    (h2 : (!st.fpConfigsvr && isCollectionSharded st source) = false)
    (h3 : isReplicatedChanged st source target = false)
    (h4 : st.dbs.contains source.db = true)
    (h5 : st.dropPendingDbs.contains source.db = false)
    (h6 : lookupColl st.colls source = some sc)
    (h7 : bgOpInProgForNs st source = false)
    (h8 : indexBuildInProgFor sc = false)
    (h9 : lookupColl st.colls target = some tc)
    (h10 : isCollectionSharded st target = false)
    (h11 : sc.uuid = tc.uuid)
    (h12 : u ≠ tc.uuid) :
    (lookupNssByUuid st.colls u = none →
      renameCollectionWithinDBForApplyOps st source target (some u) rot options
        = Outcome.ok st)
  ∧ (∀ dns, lookupNssByUuid st.colls u = some dns →
      renameCollectionWithinDBForApplyOps st source target (some u) rot options
        = Outcome.ok (dropCollectionModel st dns rot false)
      ∧ (dropCollectionModel st dns rot false).events =
          st.events ++ [Event.dropCollection dns rot false]
      ∧ (Event.dropCollection dns rot false).isRenameObserverEvent = false) := by
  have hchk : checkSourceAndTargetNamespaces st source target options true =
      CheckResult.okC := by
    unfold checkSourceAndTargetNamespaces
    simp only [h1, h2, h3, h4, h5, h6, h7, h8, h9, h10, Bool.not_true,
      Bool.false_or, Bool.or_false, Bool.false_eq_true, if_false,
      Bool.false_and]
  have hdbeq : (source.db != target.db) = false := by
    simp [hdb]
  have huuid : (sc.uuid == tc.uuid) = true := by
    simp [h11]
  have hu12 : (u == tc.uuid) = false := by
    simp [h12]
  constructor
  · intro hnone
    unfold renameCollectionWithinDBForApplyOps
    rw [hdbeq]
    simp only [Bool.false_eq_true, if_false]
    rw [hchk, h6, h9]
    dsimp only
    rw [huuid]
    simp only [if_true]
    rw [hu12]
    simp only [Bool.false_eq_true, if_false]
    rw [hnone]
  · intro dns hsome
    refine ⟨?_, rfl, rfl⟩
    unfold renameCollectionWithinDBForApplyOps
    rw [hdbeq]
    simp only [Bool.false_eq_true, if_false]
    rw [hchk, h6, h9]
    dsimp only
    rw [huuid]
    simp only [if_true]
    rw [hu12]
    simp only [Bool.false_eq_true, if_false]
    rw [hsome]

/-- Witness for C10: the re-apply state (source already renamed onto the
target namespace) with a victim collection holding the supplied UUID 3: the
victim is dropped with the apply-ops optime 11, unreplicated, and no rename
observer event is emitted. -/
theorem claimC10_witness :
    lookupColl c10St.colls ⟨"d", "y"⟩ = some c10SourceColl
  ∧ lookupNssByUuid c10St.colls 3 = some ⟨"d", "z"⟩
  ∧ (renameCollectionWithinDBForApplyOps c10St ⟨"d", "y"⟩ ⟨"d", "y"⟩ (some 3)
        (some 11) { dropTarget := true } =
      Outcome.ok (dropCollectionModel c10St ⟨"d", "z"⟩ (some 11) false)
    ∧ (dropCollectionModel c10St ⟨"d", "z"⟩ (some 11) false).events =
        c10St.events ++ [Event.dropCollection ⟨"d", "z"⟩ (some 11) false]
    ∧ (Event.dropCollection ⟨"d", "z"⟩ (some 11) false).isRenameObserverEvent
        = false) := by
  refine ⟨by decide, by decide, ?_⟩
  exact (claimC10 c10St ⟨"d", "y"⟩ ⟨"d", "y"⟩ 3 (some 11) { dropTarget := true }
    c10SourceColl c10SourceColl rfl (by decide) (by decide) (by decide)
    (by decide) (by decide) (by decide) (by decide) (by decide) (by decide)
    (by decide) rfl (by decide)).2 ⟨"d", "z"⟩ (by decide)

/-! Helper lemmas for the bulk-copy loop. -/

theorem get_some_lt (l : List Rec) (i : Nat) (r : Rec) (h : l.get? i = some r) :
    i < l.length := by
  by_contra hc
  push_neg at hc
  rw [List.get?_eq_none.mpr hc] at h
  cases h

theorem drop_eq_cons_of_get (l : List Rec) (i : Nat) (r : Rec)
    (h : l.get? i = some r) : l.drop i = r :: l.drop (i + 1) := by
  induction l generalizing i with
  | nil => cases i <;> cases h
  | cons hd tl ih =>
      cases i with
      | zero =>
          injection h with h1
          rw [h1]
          rfl
      | succ j => simpa using ih j h

theorem drop_nil_of_get_none (l : List Rec) (i : Nat) (h : l.get? i = none) :
    l.drop i = [] := by
  induction l generalizing i with
  | nil => simp
  | cons hd tl ih =>
      cases i with
      | zero => cases h
      | succ j => simpa using ih j h

theorem nodup_ids_get_ne (l : List Rec) (i j : Nat) (a b : Rec)
    (hn : (l.map Rec.id).Nodup) (ha : l.get? i = some a)
    (hb : l.get? j = some b) (hij : i ≠ j) : a.id ≠ b.id := by
  induction l generalizing i j with
  | nil => cases i <;> cases ha
  | cons hd tl ih =>
      rw [List.map_cons, List.nodup_cons] at hn
      cases i with
      | zero =>
          injection ha with ha1
          subst ha1
          cases j with
          | zero => exact absurd rfl hij
          | succ j2 =>
              have hmem : b ∈ tl := List.get?_mem hb
              intro he
              exact hn.1 (he ▸ List.mem_map_of_mem Rec.id hmem)
      | succ i2 =>
          cases j with
          | zero =>
              injection hb with hb1
              subst hb1
              have hmem : a ∈ tl := List.get?_mem ha
              intro he
              exact hn.1 (he.symm ▸ List.mem_map_of_mem Rec.id hmem)
          | succ j2 =>
              exact ih i2 j2 hn.2 ha hb (fun h => hij (by rw [h]))

theorem seekExactAux_canonical (l : List Rec) (i n : Nat) (r : Rec)
    (hn : (l.map Rec.id).Nodup) (h : l.get? i = some r) :
    seekExactAux r.id l n = (some r, n + i + 1) := by
  induction l generalizing i n with
  | nil => cases i <;> cases h
  | cons hd tl ih =>
      rw [List.map_cons, List.nodup_cons] at hn
      cases i with
      | zero =>
          injection h with h1
          subst h1
          unfold seekExactAux
          rw [if_pos (by simp)]
      | succ i2 =>
          unfold seekExactAux
          have hmem : r ∈ tl := List.get?_mem h
          have hne : hd.id ≠ r.id := fun he =>
            hn.1 (he ▸ List.mem_map_of_mem Rec.id hmem)
          rw [if_neg (by simpa using hne)]
          rw [ih i2 (n + 1) hn.2 h]
          have harith : n + 1 + i2 + 1 = n + (i2 + 1) + 1 := by omega
          rw [harith]

theorem seekExact_canonical (l : List Rec) (i : Nat) (r : Rec)
    (hn : (l.map Rec.id).Nodup) (h : l.get? i = some r) :
    seekExact l r.id = (some r, i + 1) := by
  unfold seekExact
  rw [seekExactAux_canonical l i 0 r hn h]
  have : 0 + i + 1 = i + 1 := by omega
  rw [this]

theorem insertLoop_canonical (l : List Rec) (i bs : Nat) :
    insertLoop l (l.get? i) (i + 1) bs =
      (((l.drop i).take bs).map Rec.data,
        l.get? (i + min bs (l.length - i)),
        i + min bs (l.length - i) + 1) := by
  induction bs generalizing i with
  | zero =>
      have h0 : min 0 (l.length - i) = 0 := by omega
      rw [h0]
      simp only [Nat.add_zero, List.take_zero, List.map_nil]
      cases hg : l.get? i with
      | none => rfl
      | some r => rfl
  | succ k ih =>
      cases hg : l.get? i with
      | none =>
          have hlen : l.length ≤ i := List.get?_eq_none.mp hg
          have h0 : min (k + 1) (l.length - i) = 0 := by omega
          have hdrop : l.drop i = [] := drop_nil_of_get_none l i hg
          rw [h0]
          simp only [Nat.add_zero]
          rw [hg, hdrop]
          rfl
      | some r =>
          have hlt : i < l.length := get_some_lt l i r hg
          have hidx : i + min (k + 1) (l.length - i) =
              (i + 1) + min k (l.length - (i + 1)) := by omega
          have hdrop : l.drop i = r :: l.drop (i + 1) :=
            drop_eq_cons_of_get l i r hg
          rw [hidx, hdrop]
          unfold insertLoop
          dsimp only [cursorNext]
          rw [ih (i + 1)]
          simp

theorem reposition_canonical (l : List Rec) (r : Rec) (pos : Nat) :
    repositionIfNeeded l r.id (some r) pos = ((some r, pos), []) := by
  unfold repositionIfNeeded
  dsimp only
  rw [if_neg (by simp)]

theorem reposition_displaced (l : List Rec) (bbid : Nat) (record : Option Rec)
    (pos : Nat)
    (h : record = none ∨ ∃ r2, record = some r2 ∧ r2.id ≠ bbid) :
    repositionIfNeeded l bbid record pos =
      (seekExact l bbid, [CursorOp.seek bbid]) := by
  rcases h with h | ⟨r2, h, hne⟩
  · rw [h]
    rfl
  · rw [h]
    unfold repositionIfNeeded
    dsimp only
    rw [if_pos (bne_iff_ne.mpr (Ne.symm hne))]

theorem oneAttempt_canonical (l : List Rec) (bs i : Nat) (r : Rec)
    (h : l.get? i = some r) :
    oneAttempt l bs r.id (some r) (i + 1) =
      { inserted := ((l.drop i).take bs).map Rec.data
        record := l.get? (i + min bs (l.length - i))
        pos := i + min bs (l.length - i) + 1
        ops := [CursorOp.save, CursorOp.restore] } := by
  unfold oneAttempt
  rw [reposition_canonical]
  dsimp only
  rw [show (some r : Option Rec) = l.get? i from h.symm, insertLoop_canonical]
  rfl

theorem oneAttempt_displaced (l : List Rec) (bs i : Nat) (r : Rec)
    (record : Option Rec) (pos : Nat) (hn : (l.map Rec.id).Nodup)
    (h : l.get? i = some r)
    (hd : record = none ∨ ∃ r2, record = some r2 ∧ r2.id ≠ r.id) :
    oneAttempt l bs r.id record pos =
      { inserted := ((l.drop i).take bs).map Rec.data
        record := l.get? (i + min bs (l.length - i))
        pos := i + min bs (l.length - i) + 1
        ops := [CursorOp.seek r.id, CursorOp.save, CursorOp.restore] } := by
  unfold oneAttempt
  rw [reposition_displaced l r.id record pos hd]
  dsimp only
  rw [seekExact_canonical l i r hn h]
  dsimp only
  rw [show (some r : Option Rec) = l.get? i from h.symm, insertLoop_canonical]
  rfl

theorem attempt_post_displaced (l : List Rec) (bs i : Nat) (r : Rec)
    (hn : (l.map Rec.id).Nodup) (h : l.get? i = some r) (hbs : 1 ≤ bs) :
    l.get? (i + min bs (l.length - i)) = none ∨
      ∃ r2, l.get? (i + min bs (l.length - i)) = some r2 ∧ r2.id ≠ r.id := by
  cases hg : l.get? (i + min bs (l.length - i)) with
  | none => exact Or.inl rfl
  | some r2 =>
      refine Or.inr ⟨r2, rfl, ?_⟩
      have hlt : i < l.length := get_some_lt l i r h
      exact nodup_ids_get_ne l _ _ r2 r hn hg h (by omega)

theorem runBatchRetry_spec (l : List Rec) (bs i : Nat) (r : Rec)
    (sched : List Bool) (record : Option Rec) (pos : Nat)
    (hn : (l.map Rec.id).Nodup) (h : l.get? i = some r) (hbs : 1 ≤ bs)
    (hadm : (record = some r ∧ pos = i + 1) ∨ record = none ∨
      ∃ r2, record = some r2 ∧ r2.id ≠ r.id) :
    (runBatchRetry l bs r.id record pos sched).inserted =
        ((l.drop i).take bs).map Rec.data
  ∧ (runBatchRetry l bs r.id record pos sched).record =
        l.get? (i + min bs (l.length - i))
  ∧ (runBatchRetry l bs r.id record pos sched).pos =
        i + min bs (l.length - i) + 1 := by
  induction sched generalizing record pos with
  | nil =>
      unfold runBatchRetry
      rcases hadm with ⟨h1, h2⟩ | hd
      · subst h1
        subst h2
        rw [oneAttempt_canonical l bs i r h]
        exact ⟨rfl, rfl, rfl⟩
      · rw [oneAttempt_displaced l bs i r record pos hn h hd]
        exact ⟨rfl, rfl, rfl⟩
  | cons b rest ih =>
      unfold runBatchRetry
      have hatt : (oneAttempt l bs r.id record pos).record =
          l.get? (i + min bs (l.length - i)) ∧
          (oneAttempt l bs r.id record pos).pos =
            i + min bs (l.length - i) + 1 ∧
          (oneAttempt l bs r.id record pos).inserted =
            ((l.drop i).take bs).map Rec.data := by
        rcases hadm with ⟨h1, h2⟩ | hd
        · subst h1
          subst h2
          rw [oneAttempt_canonical l bs i r h]
          exact ⟨rfl, rfl, rfl⟩
        · rw [oneAttempt_displaced l bs i r record pos hn h hd]
          exact ⟨rfl, rfl, rfl⟩
      cases b with
      | true =>
          rw [if_pos rfl]
          have hpost := attempt_post_displaced l bs i r hn h hbs
          have := ih (oneAttempt l bs r.id record pos).record
            (oneAttempt l bs r.id record pos).pos
            (by rw [hatt.1]; exact Or.inr hpost)
          exact this
      | false =>
          rw [if_neg (by simp)]
          exact ⟨hatt.2.2, hatt.1, hatt.2.1⟩

theorem take_min {α : Type} (d : List α) (bs : Nat) :
    d.take bs = d.take (min bs d.length) := by
  by_cases hb : bs ≤ d.length
  · rw [Nat.min_eq_left hb]
  · push_neg at hb
    rw [Nat.min_eq_right (Nat.le_of_lt hb), List.take_length,
      List.take_of_length_le (Nat.le_of_lt hb)]

theorem copied_assemble (l : List Rec) (i bs : Nat) :
    (((l.drop i).take bs).map Rec.data) ++
      ((l.drop (i + min bs (l.length - i))).map Rec.data) =
    (l.drop i).map Rec.data := by
  have hlen : (l.drop i).length = l.length - i := List.length_drop i l
  have h1 : (l.drop i).drop (min bs (l.length - i)) =
      l.drop (i + min bs (l.length - i)) := List.drop_drop _ _ _
  rw [← h1, ← List.map_append]
  congr 1
  rw [take_min (l.drop i) bs, hlen]
  exact List.take_append_drop _ _

theorem oneAttempt_ops_tail (l : List Rec) (bs bbid : Nat) (record : Option Rec)
    (pos : Nat) :
    (oneAttempt l bs bbid record pos).ops =
      (repositionIfNeeded l bbid record pos).2 ++
        [CursorOp.save, CursorOp.restore] := rfl

theorem reposition_ops_cases (l : List Rec) (bbid : Nat) (record : Option Rec)
    (pos : Nat) :
    (repositionIfNeeded l bbid record pos).2 = [] ∨
    (repositionIfNeeded l bbid record pos).2 = [CursorOp.seek bbid] := by
  unfold repositionIfNeeded
  cases record with
  | none => exact Or.inr rfl
  | some r =>
      dsimp only
      split
      · exact Or.inr rfl
      · exact Or.inl rfl

theorem oneAttempt_ops_count (l : List Rec) (bs bbid : Nat)
    (record : Option Rec) (pos : Nat) :
    (oneAttempt l bs bbid record pos).ops.count CursorOp.save =
      (oneAttempt l bs bbid record pos).ops.count CursorOp.restore := by
  rw [oneAttempt_ops_tail]
  rcases reposition_ops_cases l bbid record pos with h | h <;> rw [h] <;> rfl

theorem runBatchRetry_ops_count (l : List Rec) (bs bbid : Nat) :
    ∀ (sched : List Bool) (record : Option Rec) (pos : Nat),
      (runBatchRetry l bs bbid record pos sched).ops.count CursorOp.save =
      (runBatchRetry l bs bbid record pos sched).ops.count CursorOp.restore := by
  intro sched
  induction sched with
  | nil =>
      intro record pos
      exact oneAttempt_ops_count l bs bbid record pos
  | cons b rest ih =>
      intro record pos
      unfold runBatchRetry
      cases b with
      | true =>
          rw [if_pos rfl]
          dsimp only
          rw [List.count_append, List.count_append,
            oneAttempt_ops_count l bs bbid record pos,
            ih (oneAttempt l bs bbid record pos).record
              (oneAttempt l bs bbid record pos).pos]
      | false =>
          rw [if_neg (by simp)]
          exact oneAttempt_ops_count l bs bbid record pos

theorem copyLoopAux_ops_count (l : List Rec) (bs : Nat) :
    ∀ (fuel : Nat) (record : Option Rec) (pos : Nat) (sched : List Bool)
      (acc : List Nat) (ops : List CursorOp) (res : CopyRes),
      ops.count CursorOp.save = ops.count CursorOp.restore →
      copyLoopAux l bs fuel record pos sched acc ops = some res →
      res.ops.count CursorOp.save = res.ops.count CursorOp.restore := by
  intro fuel
  induction fuel with
  | zero =>
      intro record pos sched acc ops res hc h
      cases h
  | succ f ih =>
      intro record pos sched acc ops res hc h
      cases record with
      | none =>
          unfold copyLoopAux at h
          injection h with h1
          rw [← h1]
          exact hc
      | some r =>
          unfold copyLoopAux at h
          refine ih _ _ _ _ _ res ?_ h
          rw [List.count_append, List.count_append, hc,
            runBatchRetry_ops_count]

theorem copyLoopAux_copied (l : List Rec) (bs : Nat)
    (hn : (l.map Rec.id).Nodup) (hbs : 1 ≤ bs) :
    ∀ (fuel i : Nat) (sched : List Bool) (acc : List Nat)
      (ops : List CursorOp),
      l.length - i < fuel →
      ∃ ops2, copyLoopAux l bs fuel (l.get? i) (i + 1) sched acc ops =
        some { copied := acc ++ (l.drop i).map Rec.data, ops := ops2 } := by
  intro fuel
  induction fuel with
  | zero =>
      intro i sched acc ops h
      omega
  | succ f ih =>
      intro i sched acc ops hfuel
      cases hg : l.get? i with
      | none =>
          have hdrop : l.drop i = [] := drop_nil_of_get_none l i hg
          refine ⟨ops, ?_⟩
          rw [hdrop, List.map_nil, List.append_nil]
          rfl
      | some r =>
          have hlt : i < l.length := get_some_lt l i r hg
          obtain ⟨hins, hrec, hpos⟩ := runBatchRetry_spec l bs i r sched
            (some r) (i + 1) hn hg hbs (Or.inl ⟨rfl, rfl⟩)
          have hfuel2 : l.length - (i + min bs (l.length - i)) < f := by omega
          obtain ⟨ops2, h2⟩ := ih (i + min bs (l.length - i))
            (runBatchRetry l bs r.id (some r) (i + 1) sched).sched
            (acc ++ (runBatchRetry l bs r.id (some r) (i + 1) sched).inserted)
            (ops ++ (runBatchRetry l bs r.id (some r) (i + 1) sched).ops)
            hfuel2
          refine ⟨ops2, ?_⟩
          have hstep : copyLoopAux l bs (f + 1) (some r) (i + 1) sched acc ops
              = copyLoopAux l bs f
                (runBatchRetry l bs r.id (some r) (i + 1) sched).record
                (runBatchRetry l bs r.id (some r) (i + 1) sched).pos
                (runBatchRetry l bs r.id (some r) (i + 1) sched).sched
                (acc ++ (runBatchRetry l bs r.id (some r) (i + 1) sched).inserted)
                (ops ++ (runBatchRetry l bs r.id (some r) (i + 1) sched).ops) :=
            rfl
          rw [hstep, hrec, hpos, h2, hins, List.append_assoc, copied_assemble]

theorem copyLoop_spec (l : List Rec) (bs : Nat) (sched : List Bool)
    (hn : (l.map Rec.id).Nodup) (hbs : 1 ≤ bs) :
    ∃ ops2, copyLoop l bs sched (l.length + 1) =
      some { copied := l.map Rec.data, ops := ops2 } := by
  obtain ⟨ops2, h⟩ := copyLoopAux_copied l bs hn hbs (l.length + 1) 0 sched
    [] [] (by omega)
  refine ⟨ops2, ?_⟩
  unfold copyLoop
  dsimp only [cursorNext]
  simpa using h

/-- C3: in the cross-database bulk-copy loop, (a) after a write conflict
aborts a batch (leaving the cursor off the batch's first record), the retried
batch body first repositions with `seekExact` to the record id that began the
batch and behaves exactly like a fresh attempt; (b) every batch-body
execution performs its scope-guarded restore after its save, so a completed
copy balances saves and restores; (c) the copy completes with exactly the
source documents in order; and (d) the copied contents under any
write-conflict schedule equal those of a conflict-free run. -/
theorem claimC3 (docs : List Rec) (bs : Nat) (sched : List Bool)
    (hbs : 1 ≤ bs) (hn : (docs.map Rec.id).Nodup) :
    (∀ bbid record pos,
        (record = none ∨ ∃ r2, record = some r2 ∧ r2.id ≠ bbid) →
        oneAttempt docs bs bbid record pos = oneAttempt docs bs bbid none 0 ∧
        (oneAttempt docs bs bbid record pos).ops =
          [CursorOp.seek bbid, CursorOp.save, CursorOp.restore])
  ∧ (∀ bbid record pos,
        ∃ pre, (oneAttempt docs bs bbid record pos).ops =
          pre ++ [CursorOp.save, CursorOp.restore])
  ∧ (∀ res, copyLoop docs bs sched (docs.length + 1) = some res →
        res.ops.count CursorOp.save = res.ops.count CursorOp.restore)
  ∧ (∃ res, copyLoop docs bs sched (docs.length + 1) = some res ∧
        res.copied = docs.map Rec.data)
  ∧ (∀ res res2, copyLoop docs bs sched (docs.length + 1) = some res →
        copyLoop docs bs [] (docs.length + 1) = some res2 →
        res.copied = res2.copied) := by
  refine ⟨?_, ?_, ?_, ?_, ?_⟩
  · intro bbid record pos hd
    constructor
    · unfold oneAttempt
      rw [reposition_displaced docs bbid record pos hd,
        reposition_displaced docs bbid none 0 (Or.inl rfl)]
    · rw [oneAttempt_ops_tail,
        reposition_displaced docs bbid record pos hd]
      rfl
  · intro bbid record pos
    exact ⟨(repositionIfNeeded docs bbid record pos).2,
      oneAttempt_ops_tail docs bs bbid record pos⟩
  · intro res h
    exact copyLoopAux_ops_count docs bs (docs.length + 1) (docs.get? 0) 1
      sched [] [] res rfl h
  · obtain ⟨ops2, h⟩ := copyLoop_spec docs bs sched hn hbs
    exact ⟨_, h, rfl⟩
  · intro res res2 h h2
    obtain ⟨ops2, hs⟩ := copyLoop_spec docs bs sched hn hbs
    obtain ⟨ops3, hs2⟩ := copyLoop_spec docs bs [] hn hbs
    rw [h] at hs
    rw [h2] at hs2
    injection hs with hs
    injection hs2 with hs2
    rw [hs, hs2]

/-- Witness for C3: five records copied in batches of two under the schedule
[conflict, no-conflict] yield exactly the source payloads, equal to a
conflict-free run. -/
theorem claimC3_witness :
    1 ≤ 2
  ∧ (wDocs.map Rec.id).Nodup
  ∧ (∃ res, copyLoop wDocs 2 [true, false] (wDocs.length + 1) = some res ∧
      res.copied = wDocs.map Rec.data)
  ∧ (∀ res res2, copyLoop wDocs 2 [true, false] (wDocs.length + 1) = some res →
      copyLoop wDocs 2 [] (wDocs.length + 1) = some res2 →
      res.copied = res2.copied) := by
  have h := claimC3 wDocs 2 [true, false] (by decide) (by decide)
  exact ⟨by decide, by decide, h.2.2.2.1, h.2.2.2.2⟩

end MongoRename
